import Mathlib

/-!
Shallow embedding of the task-list controller in `src/Frontend/src/App.tsx`
(the `App` React component): its state, its event handlers, the derived
views, and the two effects that read from and write to `localStorage`.
Remote calls (from `src/Frontend/src/api.ts`) are modelled by passing their
outcome as an explicit `Except` argument; React state updates become
explicit state passing.
-/

namespace App

/-- Modelled from the spec: the `Task` record imported from
`src/Frontend/src/types.ts`, a file absent from the sources. Spec section 3
gives its fields: `id` (string, assigned by the remote service),
`description` (text), `isCompleted` (boolean). The usage in `App.tsx`
(`task.id`, `task.description`, `task.isCompleted`) matches. -/
structure Task where
  id : String
  description : String
  isCompleted : Bool
deriving DecidableEq

/-- Modelled from the spec: the error taxonomy of section 7 for failures
raised by `src/Frontend/src/api.ts` (absent from the sources). The
controller catches every remote failure generically (`catch (error)`), so
only the presence of a failure matters to the claims. -/
inductive RemoteError where
  | networkError
  | serviceError
  | notFoundError
  | validationError
deriving DecidableEq

/-- The filter type (`App.tsx` line 6): `'all' | 'active' | 'completed'`. -/
inductive FilterType where
  | all
  | active
  | completed
deriving DecidableEq

/-- The component state (`App.tsx` lines 9-12): the task collection, the
text of the input field (`newTask`), the `loading` flag (the spec calls it
`pending`: true while a create is in flight), and the current filter. -/
structure AppState where
  tasks : List Task
  newTask : String
  loading : Bool
  filter : FilterType
deriving DecidableEq

/-- The WhiteSpace and LineTerminator characters that JavaScript
`String.prototype.trim` strips: tab, LF, VT, FF, CR, space, NBSP, the
Unicode line and paragraph separators, and the BOM (other Zs characters
behave the same and are not listed individually). -/
def isJsWhitespace (c : Char) : Bool :=
  c = ' ' || c = '\t' || c = '\n' || c = '\r' ||
  c = Char.ofNat 11 || c = Char.ofNat 12 || c = Char.ofNat 160 ||
  c = Char.ofNat 8232 || c = Char.ofNat 8233 || c = Char.ofNat 65279

/-- JavaScript `String.prototype.trim` as used in `newTask.trim()`
(`App.tsx` lines 40 and 104): drops leading and trailing whitespace. -/
def jsTrim (s : String) : String :=
  String.mk (((s.data.dropWhile isJsWhitespace).reverse.dropWhile isJsWhitespace).reverse)

/-- A `localStorage` value classified by how `JSON.parse` behaves on it
(`App.tsx` lines 16-18 and 26). `enc ts` stands for the string
`JSON.stringify` produces from the task array `ts`: it is non-empty (it
starts with a bracket, hence truthy) and parses back to `ts`. `empty` is
the empty string, which is falsy, so the `if (saved)` guard skips it.
`malformed` stands for any other string, on which `JSON.parse` throws a
SyntaxError. Strings that parse to well-formed JSON that is not a task
array are outside the claims considered here and are not distinguished. -/
inductive Blob where
  | enc (ts : List Task)
  | empty
  | malformed
deriving DecidableEq

/-- JS truthiness of the stored string: only the empty string is falsy. -/
def Blob.truthy : Blob → Bool
  | Blob.empty => false
  | _ => true

/-- The exception `JSON.parse` throws on a malformed string (a JS
SyntaxError; the spec calls this situation CacheParseError). -/
inductive JsException where
  | parseError
deriving DecidableEq

/-- `JSON.parse` applied to a cached blob (`App.tsx` line 18): returns the
encoded task array, or throws on a malformed or empty string. -/
def jsonParse : Blob → Except JsException (List Task)
  | Blob.enc ts => Except.ok ts
  | _ => Except.error JsException.parseError

/-- `JSON.stringify(tasks)` (`App.tsx` line 26). -/
def jsonStringify (tasks : List Task) : Blob := Blob.enc tasks

/-- The save effect (`App.tsx` lines 24-27): whenever `tasks` changes, the
cache is rewritten with the serialized collection under the key `tasks`. -/
def saveTasksEffect (tasks : List Task) : Blob := jsonStringify tasks

/-- `loadTasks` (`App.tsx` lines 29-36): the remote fetch outcome is passed
as the `remote` argument; on success its data replaces `tasks` wholesale,
on failure the error is logged and `tasks` keeps its current value. -/
def loadTasks (current : List Task) (remote : Except RemoteError (List Task)) : List Task :=
  match remote with
  | Except.ok data => data
  | Except.error _ => current

/-- Outcome of the mount effect: the resulting `tasks` value, whether
`loadTasks()` was reached, and the exception if the effect body threw. -/
structure InitOutcome where
  tasks : List Task
  fetchIssued : Bool
  crashed : Option JsException
deriving DecidableEq

/-- The mount effect (`App.tsx` lines 14-22). `cache` is
`localStorage.getItem` returning null (`none`) or a string; if the string
is truthy, `JSON.parse` it and set `tasks` - a parse exception propagates
out of the effect body, so `loadTasks()` on line 20 is never reached;
otherwise fall through to `loadTasks()` with `tasks` still `[]`. -/
def mountEffect (cache : Option Blob) (remote : Except RemoteError (List Task)) : InitOutcome :=
  match cache with
  | none => ⟨loadTasks [] remote, true, none⟩
  | some b =>
    if b.truthy then
      match jsonParse b with
      | Except.ok ts => ⟨loadTasks ts remote, true, none⟩
      | Except.error ex => ⟨[], false, some ex⟩
    else ⟨loadTasks [] remote, true, none⟩

/-- `handleAddTask` (`App.tsx` lines 38-52). The remote create outcome is
the `remote` argument. Returns the state after the handler finishes and
whether the remote create call was issued. Line 40 returns early when the
trimmed input is empty; otherwise `loading` is set, the create is issued,
on success the returned task is appended and the input cleared, on failure
the error is logged and `tasks` is untouched; the `finally` on lines 49-51
clears `loading` in both outcomes. -/
def handleAddTask (s : AppState) (remote : Except RemoteError Task) : AppState × Bool :=
  if jsTrim s.newTask = "" then (s, false)
  else
    let s1 : AppState := { s with loading := true }
    let s2 : AppState :=
      match remote with
      | Except.ok task => { s1 with tasks := s1.tasks ++ [task], newTask := "" }
      | Except.error _ => s1
    ({ s2 with loading := false }, true)

/-- The addTask intent as the view wires it (`App.tsx` lines 91-112): form
submission runs `handleAddTask`, but the submit button is disabled while
`loading || !newTask.trim()` (line 104) and the text input is disabled
while `loading` (line 99), so no submit event can be raised while a create
is pending - a disabled control swallows the attempt and the handler never
runs. Returns the state after the intent and whether a remote create call
was issued. -/
def addTaskIntent (s : AppState) (remote : Except RemoteError Task) : AppState × Bool :=
  if s.loading || (jsTrim s.newTask == "") then (s, false)
  else handleAddTask s remote

/-- `handleToggleComplete` (`App.tsx` lines 54-61): on success of the
remote update, `tasks.map` replaces every entry whose id equals `task.id`
with the returned task `updated`; on failure the error is logged and the
state is unchanged. -/
def handleToggleComplete (s : AppState) (task : Task) (remote : Except RemoteError Task) :
    AppState :=
  match remote with
  | Except.ok updated =>
      { s with tasks := s.tasks.map fun t => if t.id = task.id then updated else t }
  | Except.error _ => s

/-- `handleDeleteTask` (`App.tsx` lines 63-70): on success of the remote
delete, `tasks.filter` keeps exactly the entries whose id differs from
`id`; on failure the error is logged and the state is unchanged. -/
def handleDeleteTask (s : AppState) (id : String) (remote : Except RemoteError Unit) :
    AppState :=
  match remote with
  | Except.ok _ => { s with tasks := s.tasks.filter fun t => t.id != id }
  | Except.error _ => s

/-- `filteredTasks` (`App.tsx` lines 72-76): the derived, filtered view of
the collection. -/
def filteredTasks (tasks : List Task) (filter : FilterType) : List Task :=
  tasks.filter fun task =>
    if filter = FilterType.active then !task.isCompleted
    else if filter = FilterType.completed then task.isCompleted
    else true

/-- The shape of the derived counts (`App.tsx` lines 78-82). -/
structure Stats where
  total : Nat
  active : Nat
  completed : Nat
deriving DecidableEq

/-- `stats` (`App.tsx` lines 78-82): counts derived from `tasks` on every
render, never stored independently. -/
def stats (tasks : List Task) : Stats :=
  { total := tasks.length
    active := (tasks.filter fun t => !t.isCompleted).length
    completed := (tasks.filter fun t => t.isCompleted).length }

/-- C7: for every task collection, the filtered view under the `all` filter
is the collection itself, unchanged in order and length. -/
theorem filteredTasks_all_identity (tasks : List Task) :
    filteredTasks tasks FilterType.all = tasks := by
  simp [filteredTasks]

/-- C7 witness: the `all` filter is the identity on a concrete collection. -/
theorem filteredTasks_all_identity_witness :
    filteredTasks [Task.mk "1" "Buy milk" false, Task.mk "2" "Clean" true] FilterType.all =
      [Task.mk "1" "Buy milk" false, Task.mk "2" "Clean" true] :=
  filteredTasks_all_identity [Task.mk "1" "Buy milk" false, Task.mk "2" "Clean" true]

/-- C9: for every task collection, the derived stats satisfy
`total = active + completed`. -/
theorem stats_consistent (tasks : List Task) :
    (stats tasks).total = (stats tasks).active + (stats tasks).completed := by
  simp only [stats]
  induction tasks with
  | nil => rfl
  | cons t ts ih =>
    cases hc : t.isCompleted <;> simp [List.filter_cons, hc] <;> omega

/-- C9 witness: stats consistency on a concrete collection. -/
theorem stats_consistent_witness :
    (stats [Task.mk "1" "Buy milk" false, Task.mk "2" "Clean" true]).total =
      (stats [Task.mk "1" "Buy milk" false, Task.mk "2" "Clean" true]).active +
        (stats [Task.mk "1" "Buy milk" false, Task.mk "2" "Clean" true]).completed :=
  stats_consistent [Task.mk "1" "Buy milk" false, Task.mk "2" "Clean" true]


/-- A sample active task, used in concrete witnesses. -/
def t1 : Task := ⟨"1", "Buy milk", false⟩

/-- A sample completed task, used in concrete witnesses. -/
def t2 : Task := ⟨"2", "Clean desk", true⟩

/-- A sample state with a create in flight, used in concrete witnesses. -/
def pendingState : AppState := ⟨[t1], "Walk dog", true, FilterType.all⟩

/-- A sample state whose input field is whitespace-only. -/
def wsState : AppState := ⟨[t1], "   ", false, FilterType.all⟩

/-- C1: in any state where a create is already pending (`loading = true`),
issuing the addTask intent a second time has no effect: the state - hence
the collection length and the pending flag - is unchanged and no second
remote create call is issued, so at most one create is in flight at a
time. The gate is the `disabled` wiring of the submit controls (`App.tsx`
lines 99 and 104), not the handler body. -/
theorem addTaskIntent_pending_noop (s : AppState) (remote : Except RemoteError Task)
    (h : s.loading = true) :
    addTaskIntent s remote = (s, false) ∧
    (addTaskIntent s remote).1.tasks.length = s.tasks.length ∧
    (addTaskIntent s remote).1.loading = s.loading ∧
    (addTaskIntent s remote).2 = false := by
  have hs : addTaskIntent s remote = (s, false) := by simp [addTaskIntent, h]
  exact ⟨hs, by rw [hs], by rw [hs], by rw [hs]⟩

/-- C1 witness: the gate at a concrete pending state. -/
theorem addTaskIntent_pending_noop_witness :
    pendingState.loading = true ∧
    (addTaskIntent pendingState (Except.ok t2) = (pendingState, false) ∧
      (addTaskIntent pendingState (Except.ok t2)).1.tasks.length = pendingState.tasks.length ∧
      (addTaskIntent pendingState (Except.ok t2)).1.loading = pendingState.loading ∧
      (addTaskIntent pendingState (Except.ok t2)).2 = false) :=
  ⟨rfl, addTaskIntent_pending_noop pendingState (Except.ok t2) rfl⟩

/-- C4: a call to `handleAddTask` whose input is empty after trimming
(empty or whitespace-only) is a no-op: line 40 returns before the remote
create is issued, leaving the whole state - in particular the task
collection - unchanged. -/
theorem handleAddTask_empty_noop (s : AppState) (remote : Except RemoteError Task)
    (h : jsTrim s.newTask = "") :
    handleAddTask s remote = (s, false) := by
  simp [handleAddTask, h]

/-- C4 witness: a whitespace-only input makes `handleAddTask` a no-op. -/
theorem handleAddTask_empty_noop_witness :
    jsTrim wsState.newTask = "" ∧
    handleAddTask wsState (Except.ok t2) = (wsState, false) :=
  ⟨by decide, handleAddTask_empty_noop wsState (Except.ok t2) (by decide)⟩

/-- C2 counterexample: with a present but malformed cached blob, the mount
effect crashes on `JSON.parse` before `loadTasks()` on line 20 runs:
initialization fails and control does NOT fall through to the remote
fetch, contrary to the claim. -/
theorem mountEffect_malformed_counterexample :
    (mountEffect (some Blob.malformed) (Except.ok [t1])).crashed = some JsException.parseError ∧
    (mountEffect (some Blob.malformed) (Except.ok [t1])).fetchIssued = false :=
  ⟨rfl, rfl⟩

/-- C2 amended: if the cached blob is present (truthy) but malformed, the
mount effect throws the parse exception before reaching `loadTasks()`: the
remote fetch is not issued and `tasks` remains empty. -/
theorem mountEffect_malformed_aborts (remote : Except RemoteError (List Task)) :
    mountEffect (some Blob.malformed) remote = ⟨[], false, some JsException.parseError⟩ :=
  rfl

/-- C2 amended witness: the crash at a concrete remote outcome. -/
theorem mountEffect_malformed_aborts_witness :
    mountEffect (some Blob.malformed) (Except.error RemoteError.networkError) =
      ⟨[], false, some JsException.parseError⟩ :=
  mountEffect_malformed_aborts (Except.error RemoteError.networkError)

/-- C3: for every task collection written to the cache by the save effect,
a fresh mount whose remote fetch fails reads back exactly that collection,
element for element and in the same order. -/
theorem cache_round_trip (ts : List Task) (e : RemoteError) :
    mountEffect (some (saveTasksEffect ts)) (Except.error e) = ⟨ts, true, none⟩ :=
  rfl

/-- C3 witness: the round trip at the concrete collection `[t1, t2]`. -/
theorem cache_round_trip_witness :
    mountEffect (some (saveTasksEffect [t1, t2])) (Except.error RemoteError.networkError) =
      ⟨[t1, t2], true, none⟩ :=
  cache_round_trip [t1, t2] RemoteError.networkError


/-- A sample two-task state shared by the toggle and delete witnesses. -/
def twoTaskState : AppState := ⟨[t1, t2], "", false, FilterType.all⟩

/-- The sample task `t1` as the server returns it after a toggle. -/
def t1done : Task := ⟨"1", "Buy milk", true⟩

/-- A map that fixes every element of a list leaves the list unchanged. -/
theorem map_fix (l : List Task) (f : Task → Task) (h : ∀ x ∈ l, f x = x) :
    l.map f = l := by
  induction l with
  | nil => rfl
  | cons a l ih =>
    rw [List.map_cons, h a (List.mem_cons_self a l),
      ih fun x hx => h x (List.mem_cons_of_mem a hx)]

/-- C5: for a toggle on a task present in a collection with unique ids, a
successful remote update replaces exactly the matching entry with the
server's returned task (the surrounding entries are untouched), and a
failed remote update leaves the collection unchanged. -/
theorem handleToggleComplete_replaces (s : AppState) (task updated : Task)
    (e : RemoteError) (hmem : task ∈ s.tasks) (hnodup : (s.tasks.map Task.id).Nodup) :
    (∃ l1 l2, s.tasks = l1 ++ task :: l2 ∧
      (handleToggleComplete s task (Except.ok updated)).tasks = l1 ++ updated :: l2) ∧
    (handleToggleComplete s task (Except.error e)).tasks = s.tasks := by
  refine ⟨?_, rfl⟩
  obtain ⟨l1, l2, hsplit⟩ := List.append_of_mem hmem
  refine ⟨l1, l2, hsplit, ?_⟩
  have hnd : ((l1 ++ task :: l2).map Task.id).Nodup := by rw [← hsplit]; exact hnodup
  rw [List.map_append, List.map_cons] at hnd
  obtain ⟨h1nd, h2nd, hdisj⟩ := List.nodup_append.mp hnd
  have h1 : ∀ x ∈ l1, x.id ≠ task.id := by
    intro x hx heq
    exact hdisj (List.mem_map.mpr ⟨x, hx, rfl⟩)
      (by rw [heq]; exact List.mem_cons_self _ _)
  have h2 : ∀ x ∈ l2, x.id ≠ task.id := by
    intro x hx heq
    exact (List.nodup_cons.mp h2nd).1 (List.mem_map.mpr ⟨x, hx, heq⟩)
  show (s.tasks.map fun t => if t.id = task.id then updated else t) = l1 ++ updated :: l2
  rw [hsplit, List.map_append, List.map_cons, if_pos rfl,
    map_fix l1 _ (fun x hx => if_neg (h1 x hx)),
    map_fix l2 _ (fun x hx => if_neg (h2 x hx))]

/-- C5 witness: toggling `t1` in the two-task sample. -/
theorem handleToggleComplete_replaces_witness :
    t1 ∈ twoTaskState.tasks ∧ (twoTaskState.tasks.map Task.id).Nodup ∧
    ((∃ l1 l2, twoTaskState.tasks = l1 ++ t1 :: l2 ∧
        (handleToggleComplete twoTaskState t1 (Except.ok t1done)).tasks =
          l1 ++ t1done :: l2) ∧
      (handleToggleComplete twoTaskState t1
          (Except.error RemoteError.networkError)).tasks = twoTaskState.tasks) :=
  ⟨by decide, by decide,
    handleToggleComplete_replaces twoTaskState t1 t1done RemoteError.networkError
      (by decide) (by decide)⟩

/-- C10: when the server echoes the toggled task under the same id, a
successful toggle preserves the collection length and the sequence of ids;
position by position, the entry whose id matches is replaced by the
returned task and every other entry is exactly the task that was there
before. -/
theorem handleToggleComplete_frame (s : AppState) (task updated : Task)
    (hid : updated.id = task.id) :
    (handleToggleComplete s task (Except.ok updated)).tasks.length = s.tasks.length ∧
    (handleToggleComplete s task (Except.ok updated)).tasks.map Task.id =
      s.tasks.map Task.id ∧
    ∀ (i : Nat) (t : Task), s.tasks[i]? = some t →
      (t.id = task.id →
        (handleToggleComplete s task (Except.ok updated)).tasks[i]? = some updated) ∧
      (t.id ≠ task.id →
        (handleToggleComplete s task (Except.ok updated)).tasks[i]? = some t) := by
  simp only [handleToggleComplete]
  refine ⟨List.length_map _ _, ?_, ?_⟩
  · rw [List.map_map]
    apply List.map_congr_left
    intro a _
    by_cases hc : a.id = task.id
    · simp [Function.comp, hc, hid]
    · simp [Function.comp, hc]
  · intro i t ht
    constructor
    · intro hidt
      rw [List.getElem?_map, ht]
      simp [hidt]
    · intro hidt
      rw [List.getElem?_map, ht]
      simp [hidt]

/-- C10 witness: the frame condition for toggling `t1` in the sample. -/
theorem handleToggleComplete_frame_witness :
    t1done.id = t1.id ∧
    ((handleToggleComplete twoTaskState t1 (Except.ok t1done)).tasks.length =
        twoTaskState.tasks.length ∧
      (handleToggleComplete twoTaskState t1 (Except.ok t1done)).tasks.map Task.id =
        twoTaskState.tasks.map Task.id ∧
      ∀ (i : Nat) (t : Task), twoTaskState.tasks[i]? = some t →
        (t.id = t1.id →
          (handleToggleComplete twoTaskState t1 (Except.ok t1done)).tasks[i]? =
            some t1done) ∧
        (t.id ≠ t1.id →
          (handleToggleComplete twoTaskState t1 (Except.ok t1done)).tasks[i]? =
            some t)) :=
  ⟨rfl, handleToggleComplete_frame twoTaskState t1 t1done rfl⟩

/-- C6: a successful remote delete removes exactly the entries matching the
id - the result is a subsequence of the original collection in which no
entry carries the deleted id, while every entry with a different id is
kept - and a failed remote delete leaves the collection unchanged. -/
theorem handleDeleteTask_spec (s : AppState) (id : String) (e : RemoteError) :
    (handleDeleteTask s id (Except.ok ())).tasks.Sublist s.tasks ∧
    (∀ t ∈ (handleDeleteTask s id (Except.ok ())).tasks, t.id ≠ id) ∧
    (∀ t ∈ s.tasks, t.id ≠ id → t ∈ (handleDeleteTask s id (Except.ok ())).tasks) ∧
    (handleDeleteTask s id (Except.error e)).tasks = s.tasks := by
  simp only [handleDeleteTask]
  refine ⟨List.filter_sublist _, ?_, ?_, trivial⟩
  · intro t ht
    have hp := (List.mem_filter.mp ht).2
    simpa using hp
  · intro t ht hne
    exact List.mem_filter.mpr ⟨ht, by simpa using hne⟩

/-- C6 witness: deleting id "1" from the two-task sample. -/
theorem handleDeleteTask_spec_witness :
    (handleDeleteTask twoTaskState "1" (Except.ok ())).tasks.Sublist twoTaskState.tasks ∧
    (∀ t ∈ (handleDeleteTask twoTaskState "1" (Except.ok ())).tasks, t.id ≠ "1") ∧
    (∀ t ∈ twoTaskState.tasks, t.id ≠ "1" →
      t ∈ (handleDeleteTask twoTaskState "1" (Except.ok ())).tasks) ∧
    (handleDeleteTask twoTaskState "1"
      (Except.error RemoteError.networkError)).tasks = twoTaskState.tasks :=
  handleDeleteTask_spec twoTaskState "1" RemoteError.networkError

/-- C8: for a collection with unique ids, the id sets of the active and
completed filtered views partition the full id set: their union is the id
set of the whole collection and they are disjoint. -/
theorem filteredTasks_partition (tasks : List Task) (h : (tasks.map Task.id).Nodup) :
    ((filteredTasks tasks FilterType.active).map Task.id).toFinset ∪
        ((filteredTasks tasks FilterType.completed).map Task.id).toFinset =
      (tasks.map Task.id).toFinset ∧
    Disjoint ((filteredTasks tasks FilterType.active).map Task.id).toFinset
      ((filteredTasks tasks FilterType.completed).map Task.id).toFinset := by
  constructor
  · ext a
    simp only [Finset.mem_union, List.mem_toFinset, List.mem_map, filteredTasks,
      List.mem_filter]
    constructor
    · rintro (⟨t, ⟨ht, _⟩, rfl⟩ | ⟨t, ⟨ht, _⟩, rfl⟩) <;> exact ⟨t, ht, rfl⟩
    · rintro ⟨t, ht, rfl⟩
      cases hc : t.isCompleted
      · exact Or.inl ⟨t, ⟨ht, by simp [hc]⟩, rfl⟩
      · exact Or.inr ⟨t, ⟨ht, by simp [hc]⟩, rfl⟩
  · rw [Finset.disjoint_left]
    intro a ha hb
    simp only [List.mem_toFinset, List.mem_map, filteredTasks, List.mem_filter] at ha hb
    obtain ⟨x, ⟨hx, hxc⟩, hxa⟩ := ha
    obtain ⟨y, ⟨hy, hyc⟩, hya⟩ := hb
    have hxy : x = y := List.inj_on_of_nodup_map h hx hy (by rw [hxa, hya])
    subst hxy
    simp at hxc hyc
    rw [hyc] at hxc
    cases hxc

/-- C8 witness: the partition on the two-task sample collection. -/
theorem filteredTasks_partition_witness :
    (([t1, t2].map Task.id).Nodup) ∧
    (((filteredTasks [t1, t2] FilterType.active).map Task.id).toFinset ∪
        ((filteredTasks [t1, t2] FilterType.completed).map Task.id).toFinset =
      ([t1, t2].map Task.id).toFinset ∧
    Disjoint ((filteredTasks [t1, t2] FilterType.active).map Task.id).toFinset
      ((filteredTasks [t1, t2] FilterType.completed).map Task.id).toFinset) :=
  ⟨by decide, filteredTasks_partition [t1, t2] (by decide)⟩

end App
